import Mathlib

set_option maxRecDepth 2000

/-!
Verification of the catchmynews crawl/extraction/dedup/relevance core.

The Python sources under `backend/app` are shallowly embedded:
* pure string manipulation is modelled on lists of Unicode code points
  (`List Nat`), with Python's `str.lower`, regex character classes `\w`/`\s`
  and `str.strip` modelled on the ASCII range;
* the network (`httpx`), the HTML parser (`BeautifulSoup`), the fuzzy string
  library (`fuzzywuzzy`) and the LLM client (`openai`) are external
  collaborators; they enter as explicit parameters (environment records or
  function arguments), while every decision made by the repository's own code
  is translated faithfully;
* `hashlib.sha256(...).hexdigest()` is embedded as a full executable SHA-256
  over byte lists, with the round constants derived from the primes exactly as
  in FIPS 180-4 and the implementation checked below against the well-known
  digest of the empty message.
-/

/-! ### Code points and Python string primitives (ASCII fragment) -/

/-- Code points of a Lean string, the model of a Python `str`. -/
def strCodes (s : String) : List Nat := s.toList.map Char.toNat

/-- Python `str.lower` on one code point (ASCII range). -/
def lowerCode (n : Nat) : Nat := if 65 ≤ n ∧ n ≤ 90 then n + 32 else n

/-- Python `str.upper` on one code point (ASCII range). -/
def upperCode (n : Nat) : Nat := if 97 ≤ n ∧ n ≤ 122 then n - 32 else n

/-- Python regex class `\s` (ASCII range): space, tab, LF, VT, FF, CR. -/
def isSpaceCode (n : Nat) : Bool := n == 32 || n == 9 || n == 10 || n == 11 || n == 12 || n == 13

/-- Python regex class `\w` (ASCII range): letters, digits and underscore. -/
def isWordCode (n : Nat) : Bool :=
  (48 ≤ n && n ≤ 57) || (65 ≤ n && n ≤ 90) || (97 ≤ n && n ≤ 122) || n == 95

/-- Python `str.strip()`: drop leading and trailing whitespace. -/
def pyStrip (l : List Nat) : List Nat :=
  ((l.dropWhile (fun c => isSpaceCode c)).reverse.dropWhile (fun c => isSpaceCode c)).reverse

/-- Python `str.split()` (no argument): split on whitespace runs, dropping
empty fields.  `acc` carries the code points of the word in progress,
in reverse order. -/
def pyWordsAux : List Nat → List Nat → List (List Nat)
  | [], acc => if acc.isEmpty then [] else [acc.reverse]
  | c :: cs, acc =>
      if isSpaceCode c then
        if acc.isEmpty then pyWordsAux cs [] else acc.reverse :: pyWordsAux cs []
      else pyWordsAux cs (c :: acc)

/-- Python `str.split()` on a code-point list. -/
def pyWords (l : List Nat) : List (List Nat) := pyWordsAux l []

/-- Python substring test `needle in haystack`. -/
def pySubstr : List Nat → List Nat → Bool
  | needle, [] => needle.isEmpty
  | needle, c :: cs => needle.isPrefixOf (c :: cs) || pySubstr needle cs

/-- UTF-8 encoding of one code point, as Python `str.encode` produces. -/
def utf8Char (c : Nat) : List Nat :=
  if c < 128 then [c]
  else if c < 2048 then [192 + c / 64, 128 + c % 64]
  else if c < 65536 then [224 + c / 4096, 128 + (c / 64) % 64, 128 + c % 64]
  else [240 + c / 262144, 128 + (c / 4096) % 64, 128 + (c / 64) % 64, 128 + c % 64]

/-- UTF-8 encoding of a code-point list. -/
def utf8Encode (l : List Nat) : List Nat := (l.map utf8Char).flatten

/-! ### SHA-256 (hashlib.sha256(...).hexdigest()) -/

/-- Truncation to a 32-bit word. -/
def w32 (n : Nat) : Nat := n % 4294967296

/-- Right rotation of a 32-bit word. -/
def rotr32 (n x : Nat) : Nat := w32 ((x >>> n) ||| (x <<< (32 - n)))

def bigSigma0 (x : Nat) : Nat := rotr32 2 x ^^^ rotr32 13 x ^^^ rotr32 22 x

def bigSigma1 (x : Nat) : Nat := rotr32 6 x ^^^ rotr32 11 x ^^^ rotr32 25 x

def smallSigma0 (x : Nat) : Nat := rotr32 7 x ^^^ rotr32 18 x ^^^ (x >>> 3)

def smallSigma1 (x : Nat) : Nat := rotr32 17 x ^^^ rotr32 19 x ^^^ (x >>> 10)

def sha256Ch (x y z : Nat) : Nat := (x &&& y) ^^^ ((x ^^^ 4294967295) &&& z)

def sha256Maj (x y z : Nat) : Nat := (x &&& y) ^^^ (x &&& z) ^^^ (y &&& z)

/-- Binary search for the integer cube root (guided by a fuel argument that
strictly exceeds the number of halving steps needed). -/
def icbrtGo (n : Nat) : Nat → Nat → Nat → Nat
  | 0, lo, _ => lo
  | fuel + 1, lo, hi =>
      if hi ≤ lo + 1 then lo
      else
        let m := (lo + hi) / 2
        if m * m * m ≤ n then icbrtGo n fuel m hi else icbrtGo n fuel lo m

/-- Integer cube root. -/
def icbrt (n : Nat) : Nat := icbrtGo n 130 0 (n + 2)

/-- Binary search for the integer square root (same scheme as `icbrtGo`;
`Nat.sqrt` itself is avoided because its well-founded recursion does not
reduce inside the kernel). -/
def isqrtGo (n : Nat) : Nat → Nat → Nat → Nat
  | 0, lo, _ => lo
  | fuel + 1, lo, hi =>
      if hi ≤ lo + 1 then lo
      else
        let m := (lo + hi) / 2
        if m * m ≤ n then isqrtGo n fuel m hi else isqrtGo n fuel lo m

/-- Integer square root. -/
def isqrt (n : Nat) : Nat := isqrtGo n 130 0 (n + 2)

/-- The first 64 primes, whose cube roots yield the SHA-256 round constants. -/
def sha256RoundPrimes : List Nat :=
  [2, 3, 5, 7, 11, 13, 17, 19, 23, 29, 31, 37, 41, 43, 47, 53,
   59, 61, 67, 71, 73, 79, 83, 89, 97, 101, 103, 107, 109, 113, 127, 131,
   137, 139, 149, 151, 157, 163, 167, 173, 179, 181, 191, 193, 197, 199, 211, 223,
   227, 229, 233, 239, 241, 251, 257, 263, 269, 271, 277, 281, 283, 293, 307, 311]

/-- SHA-256 round constants: first 32 fractional bits of the cube roots of the
first 64 primes. -/
def sha256K : List Nat := sha256RoundPrimes.map (fun p => icbrt (p <<< 96) % 4294967296)

/-- SHA-256 initial hash value: first 32 fractional bits of the square roots of
the first 8 primes. -/
def sha256H0 : List Nat := [2, 3, 5, 7, 11, 13, 17, 19].map (fun p => isqrt (p <<< 64) % 4294967296)

/-- Big-endian 8-byte encoding of the bit length. -/
def be64 (n : Nat) : List Nat :=
  [(n >>> 56) % 256, (n >>> 48) % 256, (n >>> 40) % 256, (n >>> 32) % 256,
   (n >>> 24) % 256, (n >>> 16) % 256, (n >>> 8) % 256, n % 256]

/-- SHA-256 message padding. -/
def sha256Pad (msg : List Nat) : List Nat :=
  msg ++ [128] ++ List.replicate ((64 - ((msg.length + 9) % 64)) % 64) 0 ++ be64 (8 * msg.length)

/-- Split into 64-byte blocks (fuel-driven so the kernel can evaluate it;
the fuel always suffices for a padded message). -/
def chunk64 : Nat → List Nat → List (List Nat)
  | 0, _ => []
  | fuel + 1, l => if l.isEmpty then [] else l.take 64 :: chunk64 fuel (l.drop 64)

/-- The sixteen 32-bit big-endian words of one 64-byte block. -/
def blockWords (b : List Nat) : List Nat :=
  (List.range 16).map (fun i =>
    b.getD (4 * i) 0 * 16777216 + b.getD (4 * i + 1) 0 * 65536 +
    b.getD (4 * i + 2) 0 * 256 + b.getD (4 * i + 3) 0)

/-- One extension step of the SHA-256 message schedule. -/
def scheduleStep (ws : List Nat) : List Nat :=
  ws ++ [w32 (smallSigma1 (ws.getD (ws.length - 2) 0) + ws.getD (ws.length - 7) 0 +
              smallSigma0 (ws.getD (ws.length - 15) 0) + ws.getD (ws.length - 16) 0)]

/-- The 64-word message schedule of one block. -/
def sha256Schedule (b : List Nat) : List Nat :=
  (List.range 48).foldl (fun ws _ => scheduleStep ws) (blockWords b)

/-- The eight 32-bit working variables of SHA-256. -/
structure Sha256State where
  a : Nat
  b : Nat
  c : Nat
  d : Nat
  e : Nat
  f : Nat
  g : Nat
  h : Nat
  deriving DecidableEq

/-- One SHA-256 round, consuming one (round constant, schedule word) pair. -/
def sha256Round (st : Sha256State) (kw : Nat × Nat) : Sha256State :=
  let t1 := w32 (st.h + bigSigma1 st.e + sha256Ch st.e st.f st.g + kw.1 + kw.2)
  let t2 := w32 (bigSigma0 st.a + sha256Maj st.a st.b st.c)
  ⟨w32 (t1 + t2), st.a, st.b, st.c, w32 (st.d + t1), st.e, st.f, st.g⟩

/-- The round loop, with the working variables passed positionally so that
evaluation unrolls as a flat spine. -/
def sha256Rounds : List (Nat × Nat) → Sha256State → Sha256State
  | [], st => st
  | kw :: ps, st => sha256Rounds ps (sha256Round st kw)

/-- Compression of one 64-byte block. -/
def sha256Compress (st : Sha256State) (b : List Nat) : Sha256State :=
  let r := sha256Rounds (sha256K.zip (sha256Schedule b)) st
  ⟨w32 (st.a + r.a), w32 (st.b + r.b), w32 (st.c + r.c), w32 (st.d + r.d),
   w32 (st.e + r.e), w32 (st.f + r.f), w32 (st.g + r.g), w32 (st.h + r.h)⟩

/-- SHA-256 initial state. -/
def sha256Init : Sha256State :=
  ⟨sha256H0.getD 0 0, sha256H0.getD 1 0, sha256H0.getD 2 0, sha256H0.getD 3 0,
   sha256H0.getD 4 0, sha256H0.getD 5 0, sha256H0.getD 6 0, sha256H0.getD 7 0⟩

/-- SHA-256 digest of a byte list, as the final state. -/
def sha256Digest (msg : List Nat) : Sha256State :=
  (chunk64 (msg.length / 64 + 2) (sha256Pad msg)).foldl sha256Compress sha256Init

def hexDigitChars : List Char := "0123456789abcdef".toList

def hexNibble (n : Nat) : Char := hexDigitChars.getD n '0'

/-- The eight lowercase hex characters of one 32-bit word. -/
def hexWord (w : Nat) : List Char :=
  [hexNibble ((w >>> 28) % 16), hexNibble ((w >>> 24) % 16),
   hexNibble ((w >>> 20) % 16), hexNibble ((w >>> 16) % 16),
   hexNibble ((w >>> 12) % 16), hexNibble ((w >>> 8) % 16),
   hexNibble ((w >>> 4) % 16), hexNibble (w % 16)]

/-- Model of `hashlib.sha256(bytes).hexdigest()`: the 64-character lowercase hex digest. -/
def sha256Hex (msg : List Nat) : String :=
  let s := sha256Digest msg
  String.mk (hexWord s.a ++ hexWord s.b ++ hexWord s.c ++ hexWord s.d ++
             hexWord s.e ++ hexWord s.f ++ hexWord s.g ++ hexWord s.h)

/-! ### `models/article.py` — the content fingerprint -/

/-- Title normalization inside `Article.generate_content_hash`:
`re.sub(r'[^\w\s]', '', title.lower().strip())` followed by
`' '.join(....split())`. -/
def normalizedTitleCodes (title : List Nat) : List Nat :=
  List.intercalate [32]
    (pyWords ((pyStrip (title.map lowerCode)).filter (fun c => isWordCode c || isSpaceCode c)))

/-- Body normalization inside `Article.generate_content_hash`:
`content[:500].lower().strip()`. -/
def normalizedContentCodes (content : List Nat) : List Nat :=
  pyStrip ((content.take 500).map lowerCode)

/-- The fingerprint on code-point lists: concatenate the two normalizations,
UTF-8 encode, and take the SHA-256 hex digest. -/
def contentHashCodes (title content : List Nat) : String :=
  sha256Hex (utf8Encode (normalizedTitleCodes title ++ normalizedContentCodes content))

/-- Translation of `Article.generate_content_hash(title, content)`. -/
def generate_content_hash (title content : String) : String :=
  contentHashCodes (strCodes title) (strCodes content)

/-- ASCII alphanumerics — NO underscore.  Used by the specification-side
normalization below, for comparison with the code's regex class `\w`. -/
def isAlnumCode (n : Nat) : Bool :=
  (48 ≤ n && n ≤ 57) || (65 ≤ n && n ≤ 90) || (97 ≤ n && n ≤ 122)

/-- Title normalization as the specification words it: "punctuation stripped
so that only alphanumerics and whitespace remain", then whitespace runs
collapsed to one space.  It differs from `normalizedTitleCodes` (the code's
regex `\w` keeps the underscore, which is not an alphanumeric). -/
def specNormalizedTitleCodes (title : List Nat) : List Nat :=
  List.intercalate [32]
    (pyWords ((pyStrip (title.map lowerCode)).filter (fun c => isAlnumCode c || isSpaceCode c)))

/-- The fingerprint that the specification sentence describes, built over the
specification-side title normalization. -/
def specContentFingerprint (title content : String) : String :=
  sha256Hex (utf8Encode (specNormalizedTitleCodes (strCodes title) ++
                         normalizedContentCodes (strCodes content)))

/-! ### `services/scraper.py` -/

/-- From `config.py`: the identifying user agent. -/
def USER_AGENT : String := "NewsCatcher/1.0 (Educational scraper; respects robots.txt)"

/-- From `config.py`: the default link depth. -/
def MAX_SCRAPING_DEPTH : Nat := 3

/-- From `config.py`: the default page budget. -/
def MAX_PAGES_PER_DOMAIN : Nat := 50

/-- The only request headers `_fetch_url` ever builds (scraper.py, the
`headers` dict): no `If-None-Match` or `If-Modified-Since` conditional
headers exist anywhere in the scraper. -/
def fetch_request_headers : List (String × String) :=
  [("User-Agent", USER_AGENT),
   ("Accept", "text/html,application/xhtml+xml,application/xml;q=0.9,*/*;q=0.8"),
   ("Accept-Language", "en-US,en;q=0.5")]

/-- Outcome of the network GET once redirects are followed (httpx is the
external collaborator): a timeout, a connection failure, or a final response
with status, content-type header (empty when missing) and body. -/
inductive NetOutcome where
  | timeout
  | connectionError
  | response (status : Nat) (contentType : String) (body : String)

/-- Translation of `WebScraper._fetch_url`.  Here `raise_for_status` sends any non-2xx final
status to the except-branch; a network error or timeout lands there too; all
of them return `None`.  A 2xx response whose content type lacks `text/html`
also returns `None`.  The single `Option` carries no error classification:
every failure collapses to `none`. -/
def fetch_url (outcome : NetOutcome) : Option String :=
  match outcome with
  | .timeout => none
  | .connectionError => none
  | .response status contentType body =>
      if status < 200 || 299 < status then none
      else if !(pySubstr (strCodes "text/html") (strCodes contentType)) then none
      else some body

/-- The BeautifulSoup view of a page that `_extract_article` consumes (the
parse itself is the external collaborator).  `h1Text` is
`find('h1').get_text(strip=True)` when an `h1` element exists — a found bs4
element is truthy even with empty text — `titleText` likewise for the `title`
element, and `blocks` lists `get_text` of the candidate content elements
(the content-class matches, or the all-paragraphs fallback), after
script/style/nav/footer/header removal. -/
structure ParsedDoc where
  h1Text : Option String
  titleText : Option String
  blocks : List String

/-- An extracted article (`scraped_at` timestamp elided — wall clock). -/
structure ExtractedArticle where
  url : String
  title : String
  content : String
  deriving DecidableEq

/-- The title `_extract_article` picks: the first `h1`'s text when an `h1`
element exists (even when that text is empty), else the `title` element's
text when that element exists, else `None`. -/
def chosenTitle (doc : ParsedDoc) : Option String :=
  match doc.h1Text with
  | some t => some t
  | none => doc.titleText

/-- The body `_extract_article` assembles: the text blocks longer than 50
characters, joined by a blank line. -/
def assembledBody (doc : ParsedDoc) : String :=
  String.intercalate "\n\n" (doc.blocks.filter (fun t => t.length > 50))

/-- Translation of `WebScraper._extract_article`: emit the article only when the title is
truthy (found and non-empty) and the assembled body exceeds 100 characters. -/
def extract_article (url : String) (doc : ParsedDoc) : Option ExtractedArticle :=
  match chosenTitle doc with
  | some t => if t ≠ "" ∧ (assembledBody doc).length > 100
              then some ⟨url, t, assembledBody doc⟩ else none
  | none => none

/-- The crawl environment — the external collaborators of one session.
`net` is the GET outcome for a URL; `docOf` the BeautifulSoup view of a body;
`linksOf` the href targets of a body's anchors, already resolved by `urljoin`;
`domainOf` is `urlparse(url).netloc` (`WebScraper._extract_domain`). -/
structure CrawlEnv where
  net : String → NetOutcome
  docOf : String → ParsedDoc
  linksOf : String → List String
  domainOf : String → String

/-- Traversal state: `self.visited_urls`, the accumulating `articles` list,
and a log of the `_fetch_url` calls made, as (url, depth) pairs. -/
structure CrawlState where
  visited : List String
  articles : List ExtractedArticle
  fetches : List (String × Nat)

/-- The candidate links one page contributes (`internal_links[:10]`): the
same-domain, not-yet-visited resolved anchors, capped to the first 10. -/
def consideredLinks (env : CrawlEnv) (baseDomain : String) (visited : List String)
    (body : String) : List String :=
  ((env.linksOf body).filter
    (fun l => env.domainOf l == baseDomain && !visited.contains l)).take 10

/-- Translation of `WebScraper._scrape_recursive`.  The recursion is driven by `gas`, kept
equal to `max_depth + 1 - current_depth` by every call: `gas = 0` exactly when
`current_depth > max_depth`, where the source's first guard likewise returns
the state untouched.  The per-host rate-limit sleep changes none of the
modelled state and is elided.  The `break` of the link loop is modelled by the
re-checked page budget: once `articles` is full, every remaining iteration
leaves the state unchanged, exactly as breaking out does. -/
def scrapeRec (env : CrawlEnv) (baseDomain : String) (maxDepth maxPages : Nat) :
    Nat → String → Nat → CrawlState → CrawlState
  | 0, _, _, st => st
  | gas + 1, url, depth, st =>
      if depth > maxDepth || st.articles.length ≥ maxPages then st
      else if st.visited.contains url then st
      else
        let st1 : CrawlState :=
          { st with visited := url :: st.visited, fetches := st.fetches ++ [(url, depth)] }
        match fetch_url (env.net url) with
        | none => st1
        | some body =>
            let st2 : CrawlState :=
              match extract_article url (env.docOf body) with
              | some a => { st1 with articles := st1.articles ++ [a] }
              | none => st1
            if depth < maxDepth then
              (consideredLinks env baseDomain st2.visited body).foldl
                (fun s l =>
                  if s.articles.length ≥ maxPages then s
                  else scrapeRec env baseDomain maxDepth maxPages gas l (depth + 1) s)
                st2
            else st2

/-- Translation of `WebScraper.scrape_website`: it clears the visited set and recurses from the
seed at depth 0.  It returns only the article list — no revalidation token of
any kind is produced (callers that unpack a triple fail). -/
def scrape_website (env : CrawlEnv) (url : String) (maxDepth maxPages : Nat) : CrawlState :=
  scrapeRec env (env.domainOf url) maxDepth maxPages (maxDepth + 1) url 0 ⟨[], [], []⟩

/-! ### `services/ai_service.py` — the relevance matching engine -/

/-- The match corpus of `match_criteria`: `f"{title} {summary}".lower()` with
every character outside `\w\s` replaced by a space. -/
def matchCorpus (title summary : List Nat) : List Nat :=
  ((title ++ [32] ++ summary).map lowerCode).map
    (fun c => if !(isWordCode c || isSpaceCode c) then 32 else c)

/-- Explicit keyword normalization: `re.sub(r'[-_]', ' ', kw.lower().strip())`. -/
def normalizeKeyword (kw : List Nat) : List Nat :=
  (pyStrip (kw.map lowerCode)).map (fun c => if c == 45 || c == 95 then 32 else c)

/-- The stop-word list of `match_criteria`. -/
def commonWords : List (List Nat) :=
  ["the", "a", "an", "and", "or", "but", "in", "on", "at", "to", "for",
   "of", "with", "by", "from", "about", "as", "is", "are", "was", "were",
   "be", "been", "being", "have", "has", "had", "do", "does", "did",
   "will", "would", "should", "could", "may", "might", "must", "can",
   "this", "that", "these", "those", "i", "you", "he", "she", "it",
   "we", "they", "what", "which", "who", "when", "where", "why", "how"].map strCodes

/-- The code points stripped from the ends of prompt words:
`.,!?;:()[]`, both braces, the double and single quote, and the hyphen. -/
def promptStripChars : List Nat := [46, 44, 33, 63, 59, 58, 40, 41, 91, 93, 123, 125, 34, 39, 45]

/-- Python `str.strip(chars)`. -/
def pyStripChars (chars l : List Nat) : List Nat :=
  ((l.dropWhile (fun c => chars.contains c)).reverse.dropWhile
    (fun c => chars.contains c)).reverse

/-- Keywords extracted from the prompt: split on whitespace, lowercase, strip
surrounding punctuation, keep the words longer than 2 that are not stop
words. -/
def promptKeywords (prompt : List Nat) : List (List Nat) :=
  ((pyWords prompt).map (fun w => pyStripChars promptStripChars (w.map lowerCode))).filter
    (fun w => w.length > 2 && !commonWords.contains w)

/-- Python truthiness of the optional keyword-list argument. -/
def truthyList (o : Option (List (List Nat))) : Bool :=
  match o with
  | none => false
  | some l => !l.isEmpty

/-- Python truthiness of the optional prompt argument. -/
def truthyStr (o : Option (List Nat)) : Bool :=
  match o with
  | none => false
  | some l => !l.isEmpty

/-- The `all_keywords` list `match_criteria` assembles. -/
def allKeywords (criteria_keywords : Option (List (List Nat)))
    (criteria_prompt : Option (List Nat)) : List (List Nat) :=
  (if truthyList criteria_keywords then (criteria_keywords.getD []).map normalizeKeyword
   else []) ++
  (if truthyStr criteria_prompt then promptKeywords (criteria_prompt.getD []) else [])

/-- The multi-word fuzzy loop: slide a window of the keyword's word count over
the corpus words; the first window whose ratio reaches 85 counts. -/
def multiWordFuzzy (ratio : List Nat → List Nat → Nat) (articleWords : List (List Nat))
    (keyword : List Nat) (keywordWords : List (List Nat)) : Bool :=
  (List.range (articleWords.length + 1 - keywordWords.length)).any
    (fun i => decide (85 ≤ ratio keyword
      (List.intercalate [32] ((articleWords.drop i).take keywordWords.length))))

/-- The single-word fuzzy loop: the running best ratio over the corpus words,
comparing only pairs where both lengths exceed 3. -/
def bestRatio (ratio : List Nat → List Nat → Nat) (articleWords : List (List Nat))
    (keyword : List Nat) : Nat :=
  articleWords.foldl
    (fun best w =>
      if w.length > 3 && keyword.length > 3 then max best (ratio keyword w) else best) 0

/-- The fuzzy branch of the keyword loop: the multi-word window scan for
keywords of several words, the best-ratio scan otherwise. -/
def fuzzyMatched (ratio : List Nat → List Nat → Nat) (corpus keyword : List Nat) : Bool :=
  let articleWords := pyWords corpus
  let keywordWords := pyWords keyword
  if keywordWords.length > 1 then multiWordFuzzy ratio articleWords keyword keywordWords
  else decide (bestRatio ratio articleWords keyword ≥ 85)

/-- One iteration of the keyword loop of `match_criteria`, updating the
(exact, fuzzy) counter pair. -/
def matchStep (ratio : List Nat → List Nat → Nat) (corpus : List Nat)
    (acc : Nat × Nat) (keyword : List Nat) : Nat × Nat :=
  if pySubstr keyword corpus then (acc.1 + 1, acc.2)
  else if fuzzyMatched ratio corpus keyword then (acc.1, acc.2 + 1)
  else acc

/-- The whole keyword loop: exact and fuzzy match counts. -/
def countMatches (ratio : List Nat → List Nat → Nat) (corpus : List Nat)
    (kws : List (List Nat)) : Nat × Nat :=
  kws.foldl (matchStep ratio corpus) (0, 0)

/-- The scoring tail of `match_criteria` on the assembled keyword list:
weighted count, normalization by the keyword count, and the more-than-one
exact-match boost capped at 1. -/
def keywordScore (ratio : List Nat → List Nat → Nat) (corpus : List Nat)
    (kws : List (List Nat)) : ℚ :=
  let mc := countMatches ratio corpus kws
  let score : ℚ := ((mc.1 : ℚ) + (mc.2 : ℚ) * (7 / 10)) / (kws.length : ℚ)
  if mc.1 > 1 then min (score * (12 / 10)) 1 else score

/-- Translation of `AIService.match_criteria` (floats idealized as rationals; `fuzz.ratio` is
the collaborator `ratio`).  The try/except wrapper returns 0.0 on any internal
failure; this embedding is total, so that branch has nothing left to catch. -/
def match_criteria (ratio : List Nat → List Nat → Nat)
    (article_title article_summary : String)
    (criteria_keywords : Option (List String)) (criteria_prompt : Option String) : ℚ :=
  let kwCodes : Option (List (List Nat)) := criteria_keywords.map (fun l => l.map strCodes)
  let prCodes : Option (List Nat) := criteria_prompt.map strCodes
  if !truthyList kwCodes && !truthyStr prCodes then 0
  else
    let corpus := matchCorpus (strCodes article_title) (strCodes article_summary)
    let kws := allKeywords kwCodes prCodes
    if kws.isEmpty then 0
    else keywordScore ratio corpus kws

/-! ### `services/ai_service.py` — enrichment and its fallbacks -/

/-- A scraped article as the batch processor receives it. -/
structure RawArticle where
  url : String
  title : String
  content : String
  deriving DecidableEq

/-- An article after enrichment. -/
structure ProcessedArticle where
  url : String
  title : String
  content : String
  summary : String
  categories : List String
  tags : List String
  deriving DecidableEq

/-- The LLM collaborator.  `none` models any failure of the OpenAI call (and,
for categorization, of the JSON parse of its reply). -/
structure EnrichEnv where
  summarizeLLM : String → String → Option String
  categorizeLLM : String → String → Option (List String × List String)

/-- Translation of `AIService.summarize_article`: the prompt content is truncated to 3000
characters; on failure fall back to `content[:200] + "..."`. -/
def summarize_article (env : EnrichEnv) (title content : String) : String :=
  let truncated := if content.length > 3000 then content.take 3000 else content
  match env.summarizeLLM title truncated with
  | some s => s.trim
  | none => content.take 200 ++ "..."

/-- Translation of `AIService.categorize_article`: the analyzed text is the summary when that
is truthy, else `content[:1000]`; on failure empty category and tag lists. -/
def categorize_article (env : EnrichEnv) (title content : String)
    (summary : Option String) : List String × List String :=
  let text :=
    match summary with
    | some s => if s ≠ "" then s else content.take 1000
    | none => content.take 1000
  match env.categorizeLLM title text with
  | some r => r
  | none => ([], [])

/-- Translation of `AIService.batch_process_articles`: summarize then categorize each
article and attach the results.  (The per-article try/except re-appends the
article unprocessed; in this total embedding the branch has nothing to
catch.) -/
def batch_process_articles (env : EnrichEnv) (articles : List RawArticle) :
    List ProcessedArticle :=
  articles.map (fun a =>
    let summary := summarize_article env a.title a.content
    let cat := categorize_article env a.title a.content (some summary)
    ⟨a.url, a.title, a.content, summary, cat.1, cat.2⟩)

/-! ### `celery_worker.py` — classification of an incoming article -/

/-- A stored `Article` row, restricted to the fields the dedup branch reads
and writes. -/
structure StoredArticle where
  url : String
  content_hash : String
  title : String
  content : String
  summary : String
  categories : List String
  tags : List String
  deriving DecidableEq

/-- What the per-article branch of `scrape_url_task` does with an incoming
article. -/
inductive DedupOutcome where
  | createdNew
  | updatedContent
  | duplicateSkipped
  deriving DecidableEq

/-- The classification made by `scrape_url_task`: the FIRST stored record
matching by URL or by fingerprint decides (`.filter((url==...)|(hash==...))
.first()`). -/
def classify_article (records : List StoredArticle) (aUrl aHash : String) : DedupOutcome :=
  match records.find? (fun r => r.url == aUrl || r.content_hash == aHash) with
  | none => .createdNew
  | some r =>
      if r.url == aUrl && r.content_hash != aHash then .updatedContent else .duplicateSkipped

/-- Overwrite the first record satisfying `p` (the row `first()` returned). -/
def updateFirst (p : StoredArticle → Bool) (f : StoredArticle → StoredArticle) :
    List StoredArticle → List StoredArticle
  | [] => []
  | x :: xs => if p x then f x :: xs else x :: updateFirst p f xs

/-- The store after the per-article branch of `scrape_url_task`: overwrite the
found row on update, leave the store unchanged on duplicate, append on new.
`aHash` is `generate_content_hash` of the incoming title and content. -/
def scrape_store_step (records : List StoredArticle) (a : ProcessedArticle)
    (aHash : String) : List StoredArticle :=
  match records.find? (fun r => r.url == a.url || r.content_hash == aHash) with
  | none => records ++ [⟨a.url, aHash, a.title, a.content, a.summary, a.categories, a.tags⟩]
  | some r =>
      if r.url == a.url && r.content_hash != aHash then
        updateFirst (fun s => s.url == a.url || s.content_hash == aHash)
          (fun s => { s with title := a.title, content := a.content, summary := a.summary,
                             categories := a.categories, tags := a.tags,
                             content_hash := aHash })
          records
      else records

/-! ### Concrete crawl scenarios -/

/-- The seed of the specification's 15-link scenario. -/
def seedUrl : String := "https://example.com"

/-- Child pages of the scenario homepage. -/
def childUrl (i : Nat) : String := "https://example.com/p" ++ toString i

/-- A text block of 121 characters (over both the 50- and 100-character
thresholds). -/
def longBlock : String :=
  "aaaaaaaaaaaaaaaaaaaaaaaaaaaaaaaaaaaaaaaaaaaaaaaaaaaaaaaaaaaaaaaaaaaaaaaaaaaaaaaaaaaaaaaaaaaaaaaaaaaaaaaaaaaaaaaaaaaaaaa"

/-- Scenario: every URL answers 200 HTML with the URL itself as body, the
homepage carries 15 same-host links, and no page yields an article. -/
def env15 : CrawlEnv :=
  { net := fun u => .response 200 "text/html" u
    docOf := fun _ => ⟨none, none, []⟩
    linksOf := fun b => if b = seedUrl then (List.range 15).map childUrl else []
    domainOf := fun _ => "example.com" }

/-- The 15-link scenario with every page yielding an article. -/
def env15b : CrawlEnv :=
  { env15 with docOf := fun _ => ⟨some "T", none, [longBlock]⟩ }

/-- A two-link environment whose first child times out: the traversal must
skip it and still process the second child. -/
def envSkip : CrawlEnv :=
  { net := fun u => if u = childUrl 0 then .timeout else .response 200 "text/html" u
    docOf := fun _ => ⟨some "T", none, [longBlock]⟩
    linksOf := fun b => if b = seedUrl then [childUrl 0, childUrl 1] else []
    domainOf := fun _ => "example.com" }

/-- The always-failing enrichment collaborator: every OpenAI call raises. -/
def failingEnrichEnv : EnrichEnv := ⟨fun _ _ => none, fun _ _ => none⟩

/-- The two stored records of the overlap scenario: A holds fingerprint HF,
B holds URL `.../b` with fingerprint HG. -/
def dupStoreA : StoredArticle := ⟨"https://site/a", "HF", "tA", "cA", "sA", [], []⟩

def dupStoreB : StoredArticle := ⟨"https://site/b", "HG", "tB", "cB", "sB", [], []⟩

/-- The incoming article of the overlap scenario: B's URL, but content whose
fingerprint is HF (A's content republished at B's address). -/
def dupIncoming : ProcessedArticle := ⟨"https://site/b", "tB2", "cB2", "sB2", [], []⟩

/-- A one-record store for the update branch of the amended C5. -/
def updStore : StoredArticle := ⟨"https://site/u", "HOLD", "tOld", "cOld", "sOld", [], []⟩

/-- The incoming refresh of the same URL with new content. -/
def updIncoming : ProcessedArticle := ⟨"https://site/u", "tNew", "cNew", "sNew", [], []⟩

/-- The specification's reading of a fuzzy match: for multi-word keywords some
same-word-count window of the corpus word sequence reaches ratio 85; for
single-word keywords longer than 3 some corpus word longer than 3 does. -/
def fuzzyMatchSpec (ratio : List Nat → List Nat → Nat) (corpus keyword : List Nat) : Prop :=
  if (pyWords keyword).length > 1 then
    ∃ i, i + (pyWords keyword).length ≤ (pyWords corpus).length ∧
      85 ≤ ratio keyword
        (List.intercalate [32] (((pyWords corpus).drop i).take (pyWords keyword).length))
  else
    keyword.length > 3 ∧ ∃ w ∈ pyWords corpus, w.length > 3 ∧ 85 ≤ ratio keyword w

/-- Invariant triple relating a traversal state to any state reachable from
it: the visited set grows, the fetch log extends by distinct fresh URLs logged
at depths within the budget, and the article count never exceeds the larger of
its start value and the page budget. -/
def CrawlInv (maxD maxP : Nat) (st st' : CrawlState) : Prop :=
  (∀ u ∈ st.visited, u ∈ st'.visited) ∧
  (∃ new, st'.fetches = st.fetches ++ new ∧ (new.map Prod.fst).Nodup ∧
    (∀ p ∈ new, p.1 ∈ st'.visited ∧ p.1 ∉ st.visited ∧ p.2 ≤ maxD)) ∧
  st'.articles.length ≤ max st.articles.length maxP

/-! ### Claim theorems -/

/-- Sanity anchor for the whole SHA-256 embedding: the digest of the empty
message is the universally known constant. -/
theorem sha256Hex_nil :
    sha256Hex [] = "e3b0c44298fc1c149afbf4c8996fb92427ae41e4649b934ca495991b7852b855" := by
  decide


/-- C2: the fetch sends exactly the identifying user-agent, accept and
accept-language headers — no `If-None-Match`/`If-Modified-Since` conditional
headers exist — so no revalidation-token round trip happens, although the
repository's own caller (`celery_worker.scrape_url_task`) and test
(`test_new_features.py`) unpack `(articles, etag, last_modified)` from
`scrape_website`. -/
theorem C2_no_conditional_request_headers :
    fetch_request_headers.map Prod.fst = ["User-Agent", "Accept", "Accept-Language"] := rfl

/-- C9: when enrichment fails, every article still comes through, carrying the
truncated-body summary `content[:200] + "..."` and empty category and tag
lists; and batch processing never drops an article. -/
theorem C9_enrichment_fallback (articles : List RawArticle) (env : EnrichEnv) :
    batch_process_articles failingEnrichEnv articles =
      articles.map (fun a =>
        ⟨a.url, a.title, a.content, a.content.take 200 ++ "...", [], []⟩) ∧
    (batch_process_articles env articles).length = articles.length := by
  constructor
  · simp [batch_process_articles, summarize_article, categorize_article, failingEnrichEnv]
  · simp [batch_process_articles]

/-- C10: for a document whose first level-1 heading exists but has empty text,
extraction returns `None` even with a non-empty `title` element and a long
assembled body: the fallback to the `title` element fires only when no `h1`
element exists at all. -/
theorem C10_empty_h1_suppresses_title_fallback (url titleTag : String)
    (blocks : List String) (ht : titleTag ≠ "")
    (hb : 100 < (assembledBody ⟨some "", some titleTag, blocks⟩).length) :
    extract_article url ⟨some "", some titleTag, blocks⟩ = none := by
  simp [extract_article, chosenTitle]

theorem C10_witness :
    ("Real Title" : String) ≠ "" ∧
    100 < (assembledBody ⟨some "", some "Real Title", [longBlock]⟩).length ∧
    extract_article "https://example.com/a" ⟨some "", some "Real Title", [longBlock]⟩ = none :=
  ⟨by decide, by decide,
   C10_empty_h1_suppresses_title_fallback "https://example.com/a" "Real Title" [longBlock]
     (by decide) (by decide)⟩

/-- C6 as stated is false: here a document `title` element exists
("Page Title") and the assembled body exceeds 100 characters — so a title WAS
found in the claim's sense — yet extraction returns `None`, because the
empty-texted `h1` suppressed the fallback and left a falsy title. -/
theorem C6_counterexample :
    (⟨some "", some "Page Title", [longBlock]⟩ : ParsedDoc).titleText = some "Page Title" ∧
    100 < (assembledBody ⟨some "", some "Page Title", [longBlock]⟩).length ∧
    extract_article "https://example.com/b" ⟨some "", some "Page Title", [longBlock]⟩ = none :=
  ⟨rfl, by decide, by decide⟩

/-- C6 amended: extraction returns `None` exactly when the chosen title is
missing or has empty text or the assembled body is at most 100 characters;
otherwise it returns the article carrying exactly that title and body. -/
theorem C6_amended_extract_characterization (url : String) (doc : ParsedDoc) :
    (extract_article url doc = none ↔
      chosenTitle doc = none ∨ chosenTitle doc = some "" ∨
      (assembledBody doc).length ≤ 100) ∧
    (∀ a, extract_article url doc = some a ↔
      ∃ t, chosenTitle doc = some t ∧ t ≠ "" ∧ 100 < (assembledBody doc).length ∧
        a = ⟨url, t, assembledBody doc⟩) := by
  unfold extract_article
  cases h : chosenTitle doc with
  | none => simp
  | some t =>
      by_cases h1 : t = ""
      · subst h1; simp
      · dsimp only
        by_cases h2 : 100 < (assembledBody doc).length
        · rw [if_pos ⟨h1, h2⟩]
          refine ⟨by simp [h1]; omega, fun a => ⟨fun ha => ?_, fun hex => ?_⟩⟩
          · exact ⟨t, rfl, h1, h2, (Option.some.injEq _ _ ▸ ha).symm⟩
          · obtain ⟨t', ht', _, _, rfl⟩ := hex
            cases ht'
            rfl
        · rw [if_neg (fun hc => h2 hc.2)]
          constructor
          · simp [h1]
            omega
          · intro a
            constructor
            · intro ha
              exact absurd ha (by simp)
            · rintro ⟨t', ht', hne, hlen, rfl⟩
              exact absurd hlen h2

/-- C7 as stated is false: the fetch result carries no error classification at
all — a timeout and an unsupported content type yield the very same `none`, so
no `FetchError` kind can be distinguishing them. -/
theorem C7_counterexample :
    fetch_url NetOutcome.timeout = fetch_url (NetOutcome.response 200 "application/json" "x") ∧
    fetch_url NetOutcome.timeout = none := ⟨rfl, rfl⟩

/-- C7 amended: every failing fetch — timeout, connection error, non-2xx final
status, non-HTML content type — returns the one unclassified failure value
`none` rather than propagating an exception; the traversal then only records
the node as visited and fetched, and the session continues (concretely: with
the first child timing out, the second child is still fetched and its article
collected). -/
theorem C7_amended_fetch_failures_nonfatal :
    fetch_url NetOutcome.timeout = none ∧
    fetch_url NetOutcome.connectionError = none ∧
    (∀ s ct b, s < 200 ∨ 299 < s → fetch_url (.response s ct b) = none) ∧
    (∀ s ct b, pySubstr (strCodes "text/html") (strCodes ct) = false →
      fetch_url (.response s ct b) = none) ∧
    (∀ env base maxD maxP gas url depth st,
      fetch_url (env.net url) = none →
      ¬ depth > maxD → st.articles.length < maxP →
      (st.visited.contains url) = false →
      scrapeRec env base maxD maxP (gas + 1) url depth st =
        { st with visited := url :: st.visited,
                  fetches := st.fetches ++ [(url, depth)] }) ∧
    (scrape_website envSkip seedUrl 1 50).articles.length = 2 ∧
    (scrape_website envSkip seedUrl 1 50).fetches.length = 3 := by
  refine ⟨rfl, rfl, ?_, ?_, ?_, by decide, by decide⟩
  · intro s ct b hrange
    simp only [fetch_url]
    rw [if_pos]
    rcases hrange with hr | hr <;> simp [hr]
  · intro s ct b hct
    simp only [fetch_url]
    by_cases hs : (s < 200 || 299 < s : Bool) = true
    · rw [if_pos hs]
    · rw [if_neg hs, if_pos]
      simp [hct]
  · intro env base maxD maxP gas url depth st hfetch hd hp hv
    simp only [scrapeRec]
    rw [if_neg (by simp; omega), if_neg (by simpa using hv), hfetch]

/-- Decomposition of a successful `find?`: the list splits around the found
element, everything before it failing the predicate, and `updateFirst`
rewrites exactly that element. -/
lemma find?_updateFirst_decomp (p : StoredArticle → Bool) (f : StoredArticle → StoredArticle) :
    ∀ (l : List StoredArticle) (r : StoredArticle), l.find? p = some r →
      ∃ l1 l2, l = l1 ++ r :: l2 ∧ (∀ x ∈ l1, p x = false) ∧
        updateFirst p f l = l1 ++ f r :: l2 := by
  intro l
  induction l with
  | nil => intro r hr; cases hr
  | cons x xs ih =>
      intro r hr
      by_cases hp : p x = true
      · rw [List.find?_cons_of_pos _ hp] at hr
        cases hr
        exact ⟨[], xs, rfl, by simp, by simp [updateFirst, hp]⟩
      · rw [List.find?_cons_of_neg _ hp] at hr
        obtain ⟨l1, l2, hsplit, hfail, hupd⟩ := ih r hr
        exact ⟨x :: l1, l2, by simp [hsplit],
          by intro y hy; rcases List.mem_cons.mp hy with rfl | hy
             · exact Bool.eq_false_iff.mpr hp
             · exact hfail y hy,
          by simp [updateFirst, hp, hupd]⟩

/-- Updating with a URL-preserving rewrite keeps the stored URL list. -/
lemma updateFirst_map_url (p : StoredArticle → Bool) (f : StoredArticle → StoredArticle)
    (hf : ∀ s, (f s).url = s.url) :
    ∀ l : List StoredArticle,
      (updateFirst p f l).map StoredArticle.url = l.map StoredArticle.url := by
  intro l
  induction l with
  | nil => rfl
  | cons x xs ih =>
      by_cases hp : p x = true
      · simp [updateFirst, hp, hf]
      · simp [updateFirst, hp, ih]

/-- C5 as stated is false: stored record B matches the incoming article by URL
with a different fingerprint — the claim demands `UpdatedContent` and an
overwrite — but record A, earlier in the store, matches by fingerprint, so the
code classifies it as a duplicate and leaves the store untouched. -/
theorem C5_counterexample :
    (dupStoreB.url = dupIncoming.url ∧ dupStoreB.content_hash ≠ "HF") ∧
    dupStoreB ∈ [dupStoreA, dupStoreB] ∧
    classify_article [dupStoreA, dupStoreB] dupIncoming.url "HF" ≠
      DedupOutcome.updatedContent ∧
    classify_article [dupStoreA, dupStoreB] dupIncoming.url "HF" =
      DedupOutcome.duplicateSkipped ∧
    scrape_store_step [dupStoreA, dupStoreB] dupIncoming "HF" = [dupStoreA, dupStoreB] := by
  decide

/-- C5 amended: the FIRST stored record matching by URL or fingerprint
decides.  No match at all → a new record is appended; a first match by URL
with differing fingerprint → `updatedContent`, the store keeps exactly its
URLs (no second record) and the matched row now carries the incoming title,
body, summary and fingerprint; any other first match (fingerprint match under
a different URL, or full match) → `duplicateSkipped` with the store
untouched. -/
theorem C5_amended_first_match_decides (records : List StoredArticle)
    (a : ProcessedArticle) (hsh : String) :
    ((∀ r ∈ records, r.url ≠ a.url ∧ r.content_hash ≠ hsh) →
      classify_article records a.url hsh = DedupOutcome.createdNew ∧
      scrape_store_step records a hsh =
        records ++ [⟨a.url, hsh, a.title, a.content, a.summary, a.categories, a.tags⟩]) ∧
    (∀ r, records.find? (fun s => s.url == a.url || s.content_hash == hsh) = some r →
      ((r.url = a.url ∧ r.content_hash ≠ hsh →
          classify_article records a.url hsh = DedupOutcome.updatedContent ∧
          (scrape_store_step records a hsh).map StoredArticle.url =
            records.map StoredArticle.url ∧
          (∃ s ∈ scrape_store_step records a hsh,
            s.url = r.url ∧ s.title = a.title ∧ s.content = a.content ∧
            s.summary = a.summary ∧ s.content_hash = hsh)) ∧
       (r.url ≠ a.url ∨ r.content_hash = hsh →
          classify_article records a.url hsh = DedupOutcome.duplicateSkipped ∧
          scrape_store_step records a hsh = records))) := by
  constructor
  · intro hno
    have hfind : records.find? (fun s => s.url == a.url || s.content_hash == hsh) = none := by
      rw [List.find?_eq_none]
      intro x hx
      obtain ⟨h1, h2⟩ := hno x hx
      simp [h1, h2]
    constructor
    · unfold classify_article
      rw [hfind]
    · unfold scrape_store_step
      rw [hfind]
  · intro r hfind
    constructor
    · rintro ⟨hu, hh⟩
      have hcond : (r.url == a.url && r.content_hash != hsh) = true := by
        simp [hu, bne_iff_ne, hh]
      refine ⟨?_, ?_, ?_⟩
      · unfold classify_article
        rw [hfind]
        dsimp only
        rw [if_pos hcond]
      · unfold scrape_store_step
        rw [hfind]
        dsimp only
        rw [if_pos hcond]
        apply updateFirst_map_url
        intro s
        rfl
      · unfold scrape_store_step
        rw [hfind]
        dsimp only
        rw [if_pos hcond]
        obtain ⟨l1, l2, hsplit, hfail, hupd⟩ :=
          find?_updateFirst_decomp _
            (fun s => { s with title := a.title, content := a.content, summary := a.summary,
                               categories := a.categories, tags := a.tags,
                               content_hash := hsh }) records r hfind
        rw [hupd]
        exact ⟨_, List.mem_append_right _ (List.mem_cons_self _ _), rfl, rfl, rfl, rfl, rfl⟩
    · intro hor
      have hcond : (r.url == a.url && r.content_hash != hsh) = false := by
        rcases hor with h | h <;> simp [h, bne_iff_ne]
      constructor
      · unfold classify_article
        rw [hfind]
        dsimp only
        rw [if_neg (by simp [hcond])]
      · unfold scrape_store_step
        rw [hfind]
        dsimp only
        rw [if_neg (by simp [hcond])]

theorem C5_witness :
    classify_article [updStore] updIncoming.url "HNEW" = DedupOutcome.updatedContent ∧
    (∃ s ∈ scrape_store_step [updStore] updIncoming "HNEW",
      s.url = updStore.url ∧ s.title = updIncoming.title ∧
      s.content = updIncoming.content ∧ s.summary = updIncoming.summary ∧
      s.content_hash = "HNEW") ∧
    classify_article [] updIncoming.url "HNEW" = DedupOutcome.createdNew := by
  have hmain := C5_amended_first_match_decides [updStore] updIncoming "HNEW"
  have hupd := (hmain.2 updStore (by decide)).1 ⟨rfl, by decide⟩
  refine ⟨hupd.1, hupd.2.2, ?_⟩
  exact ((C5_amended_first_match_decides [] updIncoming "HNEW").1 (by simp)).1

theorem C7_witness :
    fetch_url (NetOutcome.response 404 "text/html" "nf") = none ∧
    fetch_url (NetOutcome.response 200 "application/pdf" "p") = none ∧
    scrapeRec envSkip "example.com" 1 50 1 (childUrl 0) 1
        ⟨[seedUrl], [], [(seedUrl, 0)]⟩ =
      ⟨[childUrl 0, seedUrl], [], [(seedUrl, 0), (childUrl 0, 1)]⟩ :=
  ⟨(C7_amended_fetch_failures_nonfatal.2.2.1) 404 "text/html" "nf" (by omega),
   (C7_amended_fetch_failures_nonfatal.2.2.2.1) 200 "application/pdf" "p" (by decide),
   (C7_amended_fetch_failures_nonfatal.2.2.2.2.1) envSkip "example.com" 1 50 0 (childUrl 0) 1
     ⟨[seedUrl], [], [(seedUrl, 0)]⟩ (by decide) (by omega) (by decide) (by decide)⟩

/-- Python `str.lower` is idempotent on a code point. -/
lemma lowerCode_lowerCode (n : Nat) : lowerCode (lowerCode n) = lowerCode n := by
  by_cases h : 65 ≤ n ∧ n ≤ 90
  · have h1 : lowerCode n = n + 32 := if_pos h
    rw [h1]
    exact if_neg (by omega)
  · exact congrArg lowerCode (if_neg h) |>.trans (if_neg h) |>.trans (if_neg h).symm

/-- Lowercasing after uppercasing equals lowercasing. -/
lemma lowerCode_upperCode (n : Nat) : lowerCode (upperCode n) = lowerCode n := by
  by_cases h : 97 ≤ n ∧ n ≤ 122
  · have h1 : upperCode n = n - 32 := if_pos h
    rw [h1]
    have h2 : lowerCode (n - 32) = (n - 32) + 32 := if_pos (by omega)
    have h3 : lowerCode n = n := if_neg (by omega)
    rw [h2, h3]
    omega
  · have h1 : upperCode n = n := if_neg h
    rw [h1]

lemma map_lowerCode_map_lowerCode (l : List Nat) :
    (l.map lowerCode).map lowerCode = l.map lowerCode := by
  rw [List.map_map]
  exact List.map_congr_left (fun a _ => lowerCode_lowerCode a)

lemma map_lowerCode_map_upperCode (l : List Nat) :
    (l.map upperCode).map lowerCode = l.map lowerCode := by
  rw [List.map_map]
  exact List.map_congr_left (fun a _ => lowerCode_upperCode a)

lemma normalizedTitleCodes_map_lowerCode (t : List Nat) :
    normalizedTitleCodes (t.map lowerCode) = normalizedTitleCodes t := by
  unfold normalizedTitleCodes
  rw [map_lowerCode_map_lowerCode]

lemma normalizedTitleCodes_map_upperCode (t : List Nat) :
    normalizedTitleCodes (t.map upperCode) = normalizedTitleCodes t := by
  unfold normalizedTitleCodes
  rw [map_lowerCode_map_upperCode]

lemma normalizedContentCodes_map_lowerCode (b : List Nat) :
    normalizedContentCodes (b.map lowerCode) = normalizedContentCodes b := by
  unfold normalizedContentCodes
  rw [← List.map_take, map_lowerCode_map_lowerCode]

lemma normalizedContentCodes_map_upperCode (b : List Nat) :
    normalizedContentCodes (b.map upperCode) = normalizedContentCodes b := by
  unfold normalizedContentCodes
  rw [← List.map_take, map_lowerCode_map_upperCode]

/-- The hex digest always spells 64 characters. -/
lemma sha256Hex_length (msg : List Nat) : (sha256Hex msg).length = 64 := by
  simp [sha256Hex, hexWord, String.length]

/-- C4 as stated is false for titles containing an underscore: Python's `\w`
class keeps `_` in the normalized title, while "only alphanumerics and
whitespace remain" strips it, and the two digests differ. -/
theorem C4_counterexample :
    generate_content_hash "a_b" "x" ≠ specContentFingerprint "a_b" "x" := by decide

/-- C4 amended (the normalized title keeps alphanumerics, underscores and
whitespace): the fingerprint is the 64-hex-character SHA-256 digest of the
normalized title concatenated with the normalized 500-character body prefix,
is deterministic, and is invariant under changing the case of title and
body. -/
theorem C4_amended_fingerprint (title content : String) (t b : List Nat) :
    generate_content_hash title content =
      sha256Hex (utf8Encode (normalizedTitleCodes (strCodes title) ++
                             normalizedContentCodes (strCodes content))) ∧
    (generate_content_hash title content).length = 64 ∧
    generate_content_hash title content = generate_content_hash title content ∧
    contentHashCodes (t.map lowerCode) (b.map lowerCode) = contentHashCodes t b ∧
    contentHashCodes (t.map upperCode) (b.map upperCode) = contentHashCodes t b ∧
    generate_content_hash "Test Title" "x" = generate_content_hash "test title" "X" := by
  refine ⟨rfl, sha256Hex_length _, rfl, ?_, ?_, ?_⟩
  · unfold contentHashCodes
    rw [normalizedTitleCodes_map_lowerCode, normalizedContentCodes_map_lowerCode]
  · unfold contentHashCodes
    rw [normalizedTitleCodes_map_upperCode, normalizedContentCodes_map_upperCode]
  · show sha256Hex (utf8Encode (normalizedTitleCodes (strCodes "Test Title") ++
          normalizedContentCodes (strCodes "x"))) =
        sha256Hex (utf8Encode (normalizedTitleCodes (strCodes "test title") ++
          normalizedContentCodes (strCodes "X")))
    exact congrArg (fun l => sha256Hex (utf8Encode l)) (by decide)

/-- One keyword moves the match counters by at most one in total. -/
lemma matchStep_sum_le (ratio : List Nat → List Nat → Nat) (corpus : List Nat)
    (acc : Nat × Nat) (k : List Nat) :
    (matchStep ratio corpus acc k).1 + (matchStep ratio corpus acc k).2 ≤
      acc.1 + acc.2 + 1 := by
  unfold matchStep
  split
  · omega
  · split
    · omega
    · omega

/-- Across the whole keyword loop, exact + fuzzy counts rise by at most the
number of keywords. -/
lemma countMatches_sum_le_aux (ratio : List Nat → List Nat → Nat) (corpus : List Nat) :
    ∀ (kws : List (List Nat)) (acc : Nat × Nat),
      (kws.foldl (matchStep ratio corpus) acc).1 +
        (kws.foldl (matchStep ratio corpus) acc).2 ≤ acc.1 + acc.2 + kws.length := by
  intro kws
  induction kws with
  | nil => intro acc; simp
  | cons k ks ih =>
      intro acc
      simp only [List.foldl_cons, List.length_cons]
      have h1 := ih (matchStep ratio corpus acc k)
      have h2 := matchStep_sum_le ratio corpus acc k
      omega

/-- The relevance score of the keyword loop lies in [0, 1]. -/
lemma keywordScore_bounds (ratio : List Nat → List Nat → Nat) (corpus : List Nat)
    (kws : List (List Nat)) :
    0 ≤ keywordScore ratio corpus kws ∧ keywordScore ratio corpus kws ≤ 1 := by
  unfold keywordScore
  have hsum : (countMatches ratio corpus kws).1 + (countMatches ratio corpus kws).2 ≤
      kws.length := by
    have := countMatches_sum_le_aux ratio corpus kws (0, 0)
    simpa [countMatches] using this
  set m := (countMatches ratio corpus kws).1 with hm
  set f := (countMatches ratio corpus kws).2 with hf
  have h0 : (0 : ℚ) ≤ ((m : ℚ) + (f : ℚ) * (7 / 10)) / (kws.length : ℚ) := by positivity
  have h1 : ((m : ℚ) + (f : ℚ) * (7 / 10)) / (kws.length : ℚ) ≤ 1 := by
    rcases Nat.eq_zero_or_pos kws.length with hl | hl
    · rw [hl]
      norm_num
    · rw [div_le_one (by exact_mod_cast hl)]
      have hc : (m : ℚ) + (f : ℚ) ≤ (kws.length : ℚ) := by exact_mod_cast hsum
      nlinarith [Nat.cast_nonneg (α := ℚ) f]
  by_cases hb : m > 1
  · rw [if_pos hb]
    constructor
    · exact le_min (by positivity) (by norm_num)
    · exact min_le_right _ _
  · rw [if_neg hb]
    exact ⟨h0, h1⟩

/-- C8: the relevance score always lies in [0, 1]; it is 0 when neither
keywords nor prompt are (truthily) supplied, and 0 when the assembled keyword
set comes out empty; internal failures are caught to 0.0 by the try/except
wrapper (the embedding is total, so that branch has nothing left to catch). -/
theorem C8_score_contract (ratio : List Nat → List Nat → Nat)
    (article_title article_summary : String)
    (kw : Option (List String)) (pr : Option String) :
    (0 ≤ match_criteria ratio article_title article_summary kw pr ∧
     match_criteria ratio article_title article_summary kw pr ≤ 1) ∧
    ((kw = none ∨ kw = some []) → (pr = none ∨ pr = some "") →
      match_criteria ratio article_title article_summary kw pr = 0) ∧
    (allKeywords (kw.map (fun l => l.map strCodes)) (pr.map strCodes) = [] →
      match_criteria ratio article_title article_summary kw pr = 0) := by
  refine ⟨?_, ?_, ?_⟩
  · simp only [match_criteria]
    split
    · norm_num
    · split
      · norm_num
      · exact keywordScore_bounds _ _ _
  · intro hk hp
    rcases hk with rfl | rfl <;> rcases hp with rfl | rfl <;>
      simp [match_criteria, truthyList, truthyStr, strCodes]
  · intro hall
    simp only [match_criteria]
    split
    · rfl
    · simp [hall]

theorem C8_witness :
    match_criteria (fun _ _ => 0) "Title" "Summary" none none = 0 ∧
    match_criteria (fun _ _ => 0) "Title" "Summary" (some []) (some "") = 0 ∧
    0 ≤ match_criteria (fun _ _ => 0) "Title" "Summary" (some ["ai"]) none :=
  ⟨(C8_score_contract (fun _ _ => 0) "Title" "Summary" none none).2.1
      (Or.inl rfl) (Or.inl rfl),
   (C8_score_contract (fun _ _ => 0) "Title" "Summary" (some []) (some "")).2.1
      (Or.inr rfl) (Or.inr rfl),
   (C8_score_contract (fun _ _ => 0) "Title" "Summary" (some ["ai"]) none).1.1⟩

/-- Characterization of `List.isPrefixOf` on code-point lists, spelt out. -/
lemma isPrefixOf_nat_iff :
    ∀ (l1 l2 : List Nat), l1.isPrefixOf l2 = true ↔ ∃ t, l2 = l1 ++ t := by
  intro l1
  induction l1 with
  | nil =>
      intro l2
      simp [List.isPrefixOf]
  | cons a l1 ih =>
      intro l2
      cases l2 with
      | nil => simp [List.isPrefixOf]
      | cons b l2 =>
          simp only [List.isPrefixOf, Bool.and_eq_true, beq_iff_eq, ih, List.cons_append,
            List.cons.injEq]
          constructor
          · rintro ⟨rfl, t, rfl⟩
            exact ⟨t, rfl, rfl⟩
          · rintro ⟨t, rfl, rfl⟩
            exact ⟨rfl, t, rfl⟩

/-- Python's substring test agrees with the specification's "substring of the
corpus" reading. -/
lemma pySubstr_iff (needle : List Nat) :
    ∀ haystack, pySubstr needle haystack = true ↔
      ∃ l r, haystack = l ++ needle ++ r := by
  intro haystack
  induction haystack with
  | nil =>
      simp only [pySubstr, List.isEmpty_iff]
      constructor
      · rintro rfl
        exact ⟨[], [], rfl⟩
      · rintro ⟨l, r, h⟩
        rcases List.append_eq_nil.mp (List.append_eq_nil.mp h.symm).1 with ⟨-, h2⟩
        exact h2
  | cons c cs ih =>
      simp only [pySubstr, Bool.or_eq_true, isPrefixOf_nat_iff, ih]
      constructor
      · rintro (⟨t, ht⟩ | ⟨l, r, h⟩)
        · exact ⟨[], t, by simp [ht]⟩
        · exact ⟨c :: l, r, by simp [h]⟩
      · rintro ⟨l, r, h⟩
        cases l with
        | nil => exact Or.inl ⟨r, by simpa using h⟩
        | cons x l =>
            rw [List.cons_append, List.cons_append, List.cons.injEq] at h
            exact Or.inr ⟨l, r, h.2⟩

/-- The window scan of the multi-word fuzzy branch finds a window iff some
window of the keyword's word count fits in the corpus words with ratio at
least 85. -/
lemma multiWordFuzzy_iff (ratio : List Nat → List Nat → Nat) (ws : List (List Nat))
    (kw : List Nat) (kws : List (List Nat)) :
    multiWordFuzzy ratio ws kw kws = true ↔
      ∃ i, i + kws.length ≤ ws.length ∧
        85 ≤ ratio kw (List.intercalate [32] ((ws.drop i).take kws.length)) := by
  unfold multiWordFuzzy
  simp only [List.any_eq_true, List.mem_range, decide_eq_true_eq]
  constructor
  · rintro ⟨i, hi, hr⟩
    exact ⟨i, by omega, hr⟩
  · rintro ⟨i, hi, hr⟩
    exact ⟨i, by omega, hr⟩

/-- The running-best fold of the single-word fuzzy branch reaches 85 iff some
qualifying corpus word does. -/
lemma le_bestRatio_foldl (ratio : List Nat → List Nat → Nat) (kw : List Nat) :
    ∀ (ws : List (List Nat)) (b : Nat),
      85 ≤ ws.foldl
        (fun best w =>
          if w.length > 3 && kw.length > 3 then max best (ratio kw w) else best) b ↔
      85 ≤ b ∨ ∃ w ∈ ws, (w.length > 3 && kw.length > 3) = true ∧ 85 ≤ ratio kw w := by
  intro ws
  induction ws with
  | nil => intro b; simp
  | cons w ws ih =>
      intro b
      simp only [List.foldl_cons]
      rw [ih]
      by_cases hc : (w.length > 3 && kw.length > 3) = true
      · rw [if_pos hc]
        simp only [List.mem_cons, le_max_iff]
        constructor
        · rintro ((hb | hr) | ⟨w', hw', hc', hr'⟩)
          · exact Or.inl hb
          · exact Or.inr ⟨w, Or.inl rfl, hc, hr⟩
          · exact Or.inr ⟨w', Or.inr hw', hc', hr'⟩
        · rintro (hb | ⟨w', hw' | hw', hc', hr'⟩)
          · exact Or.inl (Or.inl hb)
          · subst hw'
            exact Or.inl (Or.inr hr')
          · exact Or.inr ⟨w', hw', hc', hr'⟩
      · rw [if_neg hc]
        simp only [List.mem_cons]
        constructor
        · rintro (hb | ⟨w', hw', hc', hr'⟩)
          · exact Or.inl hb
          · exact Or.inr ⟨w', Or.inr hw', hc', hr'⟩
        · rintro (hb | ⟨w', hw' | hw', hc', hr'⟩)
          · exact Or.inl hb
          · subst hw'
            exact absurd hc' hc
          · exact Or.inr ⟨w', hw', hc', hr'⟩

lemma le_bestRatio_iff (ratio : List Nat → List Nat → Nat) (ws : List (List Nat))
    (kw : List Nat) :
    85 ≤ bestRatio ratio ws kw ↔
      ∃ w ∈ ws, (w.length > 3 && kw.length > 3) = true ∧ 85 ≤ ratio kw w := by
  unfold bestRatio
  rw [le_bestRatio_foldl]
  simp

/-- The code's fuzzy branch agrees with the specification's reading. -/
lemma fuzzyMatched_iff (ratio : List Nat → List Nat → Nat) (corpus keyword : List Nat) :
    fuzzyMatched ratio corpus keyword = true ↔ fuzzyMatchSpec ratio corpus keyword := by
  unfold fuzzyMatched fuzzyMatchSpec
  by_cases hm : (pyWords keyword).length > 1
  · rw [if_pos hm, if_pos hm]
    exact multiWordFuzzy_iff ratio (pyWords corpus) keyword (pyWords keyword)
  · rw [if_neg hm, if_neg hm, decide_eq_true_iff]
    rw [ge_iff_le, le_bestRatio_iff]
    constructor
    · rintro ⟨w, hw, hc, hr⟩
      rw [Bool.and_eq_true, decide_eq_true_eq, decide_eq_true_eq] at hc
      exact ⟨hc.2, w, hw, hc.1, hr⟩
    · rintro ⟨hk, w, hw, hwl, hr⟩
      exact ⟨w, hw, by simp [hwl, hk], hr⟩

/-- The counter fold is the pair of `countP`s. -/
lemma countMatches_eq_countP_aux (ratio : List Nat → List Nat → Nat) (corpus : List Nat) :
    ∀ (kws : List (List Nat)) (acc : Nat × Nat),
      kws.foldl (matchStep ratio corpus) acc =
        (acc.1 + kws.countP (fun k => pySubstr k corpus),
         acc.2 + kws.countP (fun k => !pySubstr k corpus && fuzzyMatched ratio corpus k)) := by
  intro kws
  induction kws with
  | nil => intro acc; simp
  | cons k ks ih =>
      intro acc
      simp only [List.foldl_cons, List.countP_cons]
      rw [ih]
      unfold matchStep
      by_cases h1 : pySubstr k corpus = true
      · rw [if_pos h1]
        simp [h1]
        omega
      · rw [if_neg (by simp [h1])]
        by_cases h2 : fuzzyMatched ratio corpus k = true
        · rw [if_pos h2]
          simp [h1, h2]
          omega
        · rw [if_neg (by simp [h2])]
          simp [h1, h2]

/-- C3: on the assembled keyword list, a keyword is an exact match iff it is a
substring of the normalized corpus; a non-exact keyword is a fuzzy match iff
the specification's window/best-word condition holds; and the returned score
is (exact + 0.7 fuzzy) / total, boosted by 1.2 and capped at 1 exactly when
more than one exact match occurred. -/
theorem C3_relevance_score_formula (ratio : List Nat → List Nat → Nat)
    (article_title article_summary : String) (kws : List (List Nat))
    (corpus : List Nat) (e f : Nat)
    (hk : kws ≠ [])
    (hcorpus : corpus = matchCorpus (strCodes article_title) (strCodes article_summary))
    (he : e = kws.countP (fun k => pySubstr k corpus))
    (hf : f = kws.countP (fun k => !pySubstr k corpus && fuzzyMatched ratio corpus k)) :
    (keywordScore ratio corpus kws =
      if 1 < e then
        min ((((e : ℚ) + (f : ℚ) * (7 / 10)) / (kws.length : ℚ)) * (12 / 10)) 1
      else ((e : ℚ) + (f : ℚ) * (7 / 10)) / (kws.length : ℚ)) ∧
    (∀ k, pySubstr k corpus = true ↔ ∃ l r, corpus = l ++ k ++ r) ∧
    (∀ k, fuzzyMatched ratio corpus k = true ↔ fuzzyMatchSpec ratio corpus k) := by
  subst he hf
  refine ⟨?_, fun k => pySubstr_iff k corpus, fun k => fuzzyMatched_iff ratio corpus k⟩
  unfold keywordScore countMatches
  rw [countMatches_eq_countP_aux]
  simp only [Nat.zero_add]

theorem C3_witness :
    (pySubstr (strCodes "machine learning")
        (matchCorpus (strCodes "Machine-Learning Tutorial") (strCodes "an intro")) = true ↔
      ∃ l r, matchCorpus (strCodes "Machine-Learning Tutorial") (strCodes "an intro") =
        l ++ strCodes "machine learning" ++ r) ∧
    (fuzzyMatched (fun _ _ => 90)
        (matchCorpus (strCodes "Machine-Learning Tutorial") (strCodes "an intro"))
        (strCodes "machine learning") = true ↔
      fuzzyMatchSpec (fun _ _ => 90)
        (matchCorpus (strCodes "Machine-Learning Tutorial") (strCodes "an intro"))
        (strCodes "machine learning")) :=
  ⟨(C3_relevance_score_formula (fun _ _ => 90) "Machine-Learning Tutorial" "an intro"
      [strCodes "machine learning"] _ _ _ (by simp [strCodes]) rfl rfl rfl).2.1
      (strCodes "machine learning"),
   (C3_relevance_score_formula (fun _ _ => 90) "Machine-Learning Tutorial" "an intro"
      [strCodes "machine learning"] _ _ _ (by simp [strCodes]) rfl rfl rfl).2.2
      (strCodes "machine learning")⟩

lemma crawlInv_refl (maxD maxP : Nat) (st : CrawlState) : CrawlInv maxD maxP st st :=
  ⟨fun _ hu => hu, ⟨[], by simp, by simp, by simp⟩, Nat.le_max_left _ _⟩

lemma crawlInv_trans {maxD maxP : Nat} {s s' s'' : CrawlState}
    (h1 : CrawlInv maxD maxP s s') (h2 : CrawlInv maxD maxP s' s'') :
    CrawlInv maxD maxP s s'' := by
  obtain ⟨hv1, ⟨n1, hf1, hn1, hp1⟩, ha1⟩ := h1
  obtain ⟨hv2, ⟨n2, hf2, hn2, hp2⟩, ha2⟩ := h2
  refine ⟨fun u hu => hv2 u (hv1 u hu),
    ⟨n1 ++ n2, by rw [hf2, hf1, List.append_assoc], ?_, ?_⟩, by omega⟩
  · rw [List.map_append]
    refine List.Nodup.append hn1 hn2 ?_
    intro u hu1 hu2
    obtain ⟨p1, hp1m, rfl⟩ := List.mem_map.mp hu1
    obtain ⟨p2, hp2m, he⟩ := List.mem_map.mp hu2
    exact (hp2 p2 hp2m).2.1 (he ▸ (hp1 p1 hp1m).1)
  · intro p hp
    rcases List.mem_append.mp hp with h | h
    · obtain ⟨hin, hout, hd⟩ := hp1 p h
      exact ⟨hv2 _ hin, hout, hd⟩
    · obtain ⟨hin, hout, hd⟩ := hp2 p h
      exact ⟨hin, fun hc => hout (hv1 _ hc), hd⟩

/-- Every traversal step satisfies the invariant triple. -/
lemma scrapeRec_crawlInv (env : CrawlEnv) (base : String) (maxD maxP : Nat) :
    ∀ (gas : Nat) (url : String) (depth : Nat) (st : CrawlState),
      CrawlInv maxD maxP st (scrapeRec env base maxD maxP gas url depth st) := by
  intro gas
  induction gas with
  | zero => intro url depth st; exact crawlInv_refl _ _ _
  | succ gas ih =>
      intro url depth st
      simp only [scrapeRec]
      split
      next => exact crawlInv_refl _ _ _
      next hguard =>
        split
        next => exact crawlInv_refl _ _ _
        next hvis =>
          have hdepth : depth ≤ maxD := by
            by_contra hc
            exact hguard (by simp only [Bool.or_eq_true, decide_eq_true_eq]; omega)
          have hlen : st.articles.length < maxP := by
            by_contra hc
            exact hguard (by simp only [Bool.or_eq_true, decide_eq_true_eq]; omega)
          have hurl : url ∉ st.visited := by
            intro hc
            exact hvis (by simpa using hc)
          have hinv1 : CrawlInv maxD maxP st
              { st with visited := url :: st.visited,
                        fetches := st.fetches ++ [(url, depth)] } := by
            refine ⟨fun u hu => List.mem_cons_of_mem _ hu,
              ⟨[(url, depth)], rfl, by simp, ?_⟩, Nat.le_max_left _ _⟩
            intro p hp
            rcases List.mem_singleton.mp hp with rfl
            exact ⟨List.mem_cons_self _ _, hurl, hdepth⟩
          have hfold : ∀ (links : List String) (s : CrawlState),
              CrawlInv maxD maxP s (links.foldl
                (fun s' l => if s'.articles.length ≥ maxP then s'
                             else scrapeRec env base maxD maxP gas l (depth + 1) s') s) := by
            intro links
            induction links with
            | nil => intro s; exact crawlInv_refl _ _ _
            | cons l ls ihl =>
                intro s
                simp only [List.foldl_cons]
                refine crawlInv_trans ?_ (ihl _)
                by_cases hb : s.articles.length ≥ maxP
                · rw [if_pos hb]
                  exact crawlInv_refl _ _ _
                · rw [if_neg hb]
                  exact ih l (depth + 1) s
          split
          next => exact hinv1
          next b heq =>
            have hinv2 : ∀ a : ExtractedArticle, CrawlInv maxD maxP
                { st with visited := url :: st.visited,
                          fetches := st.fetches ++ [(url, depth)] }
                { st with visited := url :: st.visited,
                          fetches := st.fetches ++ [(url, depth)],
                          articles := st.articles ++ [a] } := by
              intro a
              refine ⟨fun u hu => hu, ⟨[], by simp, by simp, by simp⟩, ?_⟩
              simp only [List.length_append, List.length_singleton]
              omega
            split
            · cases hart : extract_article url (env.docOf b) with
              | none => exact crawlInv_trans hinv1 (hfold _ _)
              | some a => exact crawlInv_trans hinv1 (crawlInv_trans (hinv2 a) (hfold _ _))
            · cases hart : extract_article url (env.docOf b) with
              | none => exact hinv1
              | some a => exact crawlInv_trans hinv1 (hinv2 a)

/-- C1: within one crawl session no URL is fetched twice, the article list
never exceeds `max_pages`, every fetch happens at depth at most `max_depth`,
only the first 10 not-yet-visited same-host links of a page are considered for
recursion, and the specification's 15-link scenario fetches the seed plus
exactly 10 children and returns at most 2 articles. -/
theorem C1_traversal_invariants (env : CrawlEnv) (url : String)
    (maxDepth maxPages : Nat) :
    (((scrape_website env url maxDepth maxPages).fetches.map Prod.fst).Nodup) ∧
    ((scrape_website env url maxDepth maxPages).articles.length ≤ maxPages) ∧
    (∀ p ∈ (scrape_website env url maxDepth maxPages).fetches, p.2 ≤ maxDepth) ∧
    (∀ baseDomain visited body,
      (consideredLinks env baseDomain visited body).length ≤ 10 ∧
      ∀ l ∈ consideredLinks env baseDomain visited body,
        env.domainOf l = baseDomain ∧ l ∉ visited) ∧
    (scrape_website env15 seedUrl 1 2).fetches.length = 11 ∧
    (scrape_website env15 seedUrl 1 2).articles.length ≤ 2 ∧
    (scrape_website env15b seedUrl 1 2).articles.length = 2 ∧
    (scrape_website env15b seedUrl 1 2).fetches.length = 2 := by
  obtain ⟨hv, ⟨new, hf, hnodup, hprop⟩, hart⟩ :=
    scrapeRec_crawlInv env (env.domainOf url) maxDepth maxPages (maxDepth + 1) url 0 ⟨[], [], []⟩
  refine ⟨?_, ?_, ?_, ?_, by decide, by decide, by decide, by decide⟩
  · unfold scrape_website
    rw [hf]
    simpa using hnodup
  · unfold scrape_website
    refine le_trans hart ?_
    simp
  · unfold scrape_website
    rw [hf]
    intro p hp
    rcases List.mem_append.mp hp with h | h
    · cases h
    · exact (hprop p h).2.2
  · intro baseDomain visited body
    constructor
    · unfold consideredLinks
      rw [List.length_take]
      exact min_le_left _ _
    · intro l hl
      have hmem := List.mem_of_mem_take hl
      have hq := List.of_mem_filter hmem
      rw [Bool.and_eq_true, beq_iff_eq, Bool.not_eq_true'] at hq
      refine ⟨hq.1, fun hc => ?_⟩
      have hc' : visited.contains l = true := by simpa using hc
      rw [hc'] at hq
      simp at hq

theorem C1_witness :
    ((consideredLinks env15 "example.com" [] "https://example.com").length ≤ 10) ∧
    ((seedUrl, 0) : String × Nat).2 ≤ 1 :=
  ⟨((C1_traversal_invariants env15 seedUrl 1 2).2.2.2.1 "example.com" [] "https://example.com").1,
   (C1_traversal_invariants env15 seedUrl 1 2).2.2.1 (seedUrl, 0) (by decide)⟩
